import Mathlib

/-!
Verification of the OpenHaldex interceptor
(src/Interceptor/openhaldex_interceptor/openhaldex_interceptor.ino).

Shallow embedding conventions:
* `uint8_t` / `uint16_t` quantities are `Nat` with an explicit `% 256`
  (resp. value-range reasoning) exactly where the C code truncates;
* the C `float` quantities (`ped_value`, `ped_threshold`, `lock_target`)
  are modelled as exact rationals;
* the 10-entry lockpoint array together with the memory around it is a
  total function `Int → Lockpoint`, so that the out-of-bounds indices the
  C code can compute (such as `lockpoint_count - 1` when the counter is
  zero) remain expressible, and the value read there is the unspecified
  adjacent memory content;
* the state mutations and frame emissions of the receive callback are
  explicit: `can1_rx_callback` returns the new state, the list of frames
  sent back on the vehicle bus (Can1) and the frame relayed to the
  coupling-unit bus (Can0), if any.
-/

namespace OpenHaldex

/-- The C `lockpoint` struct: `{uint8_t speed; uint8_t lock; uint8_t intensity;}`. -/
structure Lockpoint where
  speed : ℕ
  lock : ℕ
  intensity : ℕ
  deriving DecidableEq

/-- A CAN frame: numeric identifier, DLC (`length`), and the 8-byte data
buffer `frame->data.bytes`, modelled as a list of bytes (length 8 for
well-formed frames). -/
structure Frame where
  id : ℕ
  length : ℕ
  data : List ℕ
  deriving DecidableEq

/-- Reading `frame->data.bytes[i]`: a `uint8_t`, hence the explicit `% 256`. -/
def getB (f : Frame) (i : ℕ) : ℕ := (f.data.getD i 0) % 256

/-- The implicit C `float` → `uint8_t` conversion (truncation towards zero
for the non-negative values arising here), with the 8-bit range explicit. -/
def ratToU8 (q : ℚ) : ℕ := (⌊q⌋).toNat % 256

/-- `memset(&frame->data, 0, n)`: zero the first `n` bytes of the data buffer. -/
def zeroFirst : ℕ → List ℕ → List ℕ
  | _, [] => []
  | 0, l => l
  | n + 1, _ :: l => 0 :: zeroFirst n l

/-- The interceptor's global state: `persistent_config` (`mode`,
`ped_threshold`, `lockpoints`) plus the runtime globals `lockpoint_rx`,
`lockpoint_count`, `vehicle_speed`, `ped_value` and `lock_target`.
`lockpoints` maps every integer index to the lockpoint-sized memory cell
at that offset from the array base; indices outside `[0, 10)` denote the
adjacent memory the C program would read on an out-of-bounds access. -/
structure State where
  mode : ℕ
  ped_threshold : ℚ
  lockpoints : ℤ → Lockpoint
  lockpoint_rx : ℕ
  lockpoint_count : ℕ
  vehicle_speed : ℕ
  ped_value : ℚ
  lock_target : ℚ

/-- Startup state on a first-ever boot: zero-initialised configuration and
globals (the modelled memory cells outside the array are taken as zero
too, matching a zero-initialised `persistent_config`). -/
def initState : State where
  mode := 0
  ped_threshold := 0
  lockpoints := fun _ => ⟨0, 0, 0⟩
  lockpoint_rx := 0
  lockpoint_count := 0
  vehicle_speed := 0
  ped_value := 0
  lock_target := 0

/-- The scan loop of `get_lock_target_adjustment`: starting at index `i`
with `rem` iterations left (`rem = lockpoint_count - i`), return the first
index whose lockpoint speed is `≥ vehicle_speed`, or `none` if the loop
runs to completion. -/
def loopFind (lp : ℤ → Lockpoint) (vs : ℕ) : ℕ → ℕ → Option ℕ
  | _, 0 => none
  | i, rem + 1 =>
    if vs ≤ (lp (i : ℤ)).speed then some i else loopFind lp vs (i + 1) rem

/-- `get_lock_target_adjustment()` (lines 100-145): pick `lp_upper` as the
first lockpoint with `speed ≥ vehicle_speed` and `lp_lower` as its
predecessor (initialisers `lockpoints[0]` / `lockpoints[lockpoint_count-1]`
kept when the scan finds nothing), then return `lp_lower.lock`,
`lp_upper.lock`, the interpolated value, or 0 according to the C code's
branch structure.  The float arithmetic is modelled exactly over `ℚ`. -/
def get_lock_target_adjustment (lp : ℤ → Lockpoint) (count vs : ℕ) (pv pt : ℚ) : ℚ :=
  let pair : Lockpoint × Lockpoint :=
    match loopFind lp vs 0 count with
    | some i => (lp (if i = 0 then (0 : ℤ) else (i : ℤ) - 1), lp (i : ℤ))
    | none => (lp 0, lp ((count : ℤ) - 1))
  let lo := pair.1
  let hi := pair.2
  if vs ≤ lo.speed then (lo.lock : ℚ)
  else if hi.speed ≤ vs then (hi.lock : ℚ)
  else if pv > pt ∨ pt = 0 then
    (lo.lock : ℚ) +
      (((hi.lock : ℚ) - (lo.lock : ℚ)) /
        (((hi.speed : ℚ) - (lo.speed : ℚ)) / ((vs : ℚ) - (lo.speed : ℚ))))
  else 0

/-- The lockpoint-array indices read by the scan loop of
`get_lock_target_adjustment`, in order: each iteration reads index `i`;
on a hit it additionally reads the predecessor index `(i == 0) ? 0 : i-1`. -/
def scanAccesses (lp : ℤ → Lockpoint) (vs : ℕ) : ℕ → ℕ → List ℤ
  | _, 0 => []
  | i, rem + 1 =>
    if vs ≤ (lp (i : ℤ)).speed then [(i : ℤ), if i = 0 then (0 : ℤ) else (i : ℤ) - 1]
    else (i : ℤ) :: scanAccesses lp vs (i + 1) rem

/-- All lockpoint-array indices read by one evaluation of
`get_lock_target_adjustment`: the two initialiser reads
`lockpoints[0]` and `lockpoints[lockpoint_count - 1]` (the latter index
computed in `int` arithmetic, so `-1` when the counter is zero), followed
by the scan-loop reads. -/
def gltaAccesses (lp : ℤ → Lockpoint) (count vs : ℕ) : List ℤ :=
  0 :: ((count : ℤ) - 1) :: scanAccesses lp vs 0 count

/-- `get_lock_target_adjusted_value(value)` (lines 147-172).  Besides the
returned byte, the function writes the global `lock_target` in its
non-`MODE_5050` branch; the model returns the pair
(returned byte, new `lock_target`). -/
def get_lock_target_adjusted_value (s : State) (v : ℕ) : ℕ × ℚ :=
  if s.mode = 2 then
    (if s.ped_value > s.ped_threshold ∨ s.ped_threshold = 0 then v else 0, s.lock_target)
  else
    let target :=
      get_lock_target_adjustment s.lockpoints s.lockpoint_count s.vehicle_speed
        s.ped_value s.ped_threshold
    (ratToU8 ((v : ℚ) * ((target / 2 + 20) / 100)), target)

/-- The byte produced by `get_lock_target_adjusted_value`. -/
def adjVal (s : State) (v : ℕ) : ℕ := (get_lock_target_adjusted_value s v).1

/-- The `lock_target` written by `get_lock_target_adjusted_value`. -/
def adjTarget (s : State) (v : ℕ) : ℚ := (get_lock_target_adjusted_value s v).2

/-- `get_lock_data(frame)` (lines 174-208): the per-identifier frame
rewriting, returning the mutated frame and the resulting `lock_target`
(unchanged when no call to `get_lock_target_adjusted_value` happens).
For `BRAKES3_ID` (0x4A0) the two 32-bit union words are assigned
`high = 0x0A000A00`, `low = 0x0A000A00 + (slip << 16) + slip`, which on the
byte level is the literal list below (no carries since `slip < 256`). -/
def get_lock_data (s : State) (f : Frame) : Frame × ℚ :=
  if f.id = 0x280 then
    ({ f with data :=
        ((((((((f.data.set 0 0).set 1 (adjVal s 0xf0)).set 2 0x20).set 3
          (adjVal s 0x4e)).set 4 (adjVal s 0xf0)).set 5 (adjVal s 0xf0)).set 6
          0x20).set 7 (adjVal s 0xf0)) }, adjTarget s 0xf0)
  else if f.id = 0x380 then
    ({ f with data := (f.data.set 2 (adjVal s 0xfa)).set 7 (adjVal s 0xfe) },
      adjTarget s 0xfe)
  else if f.id = 0x488 then
    ({ f with data := (f.data.set 1 (adjVal s 0xfe)).set 2 (adjVal s 0xfe) },
      adjTarget s 0xfe)
  else if f.id = 0x4a0 then
    ({ f with data :=
        [adjVal s 0xff, 0xa, adjVal s 0xff, 0xa, 0, 0xa, 0, 0xa] },
      adjTarget s 0xff)
  else if f.id = 0x1a0 then
    ({ f with data := (f.data.set 2 0).set 3 0xa }, s.lock_target)
  else (f, s.lock_target)

/-- `send_interceptor_info()` (lines 242-251): status frame 0x7FB with
byte 0 = `lock_target` truncated to `uint8_t` and byte 1 = `vehicle_speed`. -/
def infoFrame (s : State) : Frame :=
  ⟨0x7fb, 2, [ratToU8 s.lock_target, s.vehicle_speed % 256, 0, 0, 0, 0, 0, 0]⟩

/-- The state after the `MOTOR1_ID` side effect
`ped_value = incoming->data.bytes[5] * 0.4` (line 383). -/
def pedUpdated (s : State) (f : Frame) : State :=
  { s with ped_value := (getB f 5 : ℚ) * (2 / 5) }

/-- `can1_rx_callback(incoming)` (lines 253-423): classify the frame by
identifier and return `(new state, frames sent on Can1, frame relayed on
Can0)`.  Master-mode frames (0x7FD) update `mode`/`ped_threshold` and
`lock_target` and answer with the info frame; master-data frames (0x7FF)
write a lockpoint when the index byte is `< 10`; master-data-ctrl frames
(0x7FE) run the subcommand switch; everything else gets the
`MOTOR1`/`MOTOR2` side effects, the mode-gated `get_lock_data` rewrite,
and is relayed on Can0. -/
def can1_rx_callback (s : State) (f : Frame) : State × List Frame × Option Frame :=
  if f.id = 0x7fd then
    let newPt : ℚ := (getB f 1 : ℚ)
    let newLt : ℚ :=
      if getB f 0 = 2 then
        (if s.ped_value > newPt ∨ newPt = 0 then 100 else 0)
      else if getB f 0 = 1 then 0
      else s.lock_target
    let s' := { s with mode := getB f 0, ped_threshold := newPt, lock_target := newLt }
    (s', [infoFrame s'], none)
  else if f.id = 0x7ff then
    if getB f 0 < 10 then
      ({ s with
          lockpoints := fun z =>
            if z = (getB f 0 : ℤ) then ⟨getB f 1, getB f 2, getB f 3⟩
            else s.lockpoints z,
          lockpoint_rx := s.lockpoint_rx ||| (1 <<< getB f 0),
          lockpoint_count := (s.lockpoint_count + 1) % 256 }, [], none)
    else (s, [], none)
  else if f.id = 0x7fe then
    if getB f 0 = 0 then
      (s, [⟨0x7fc, 3,
            [0, s.lockpoint_rx % 256, (s.lockpoint_rx <<< 8) % 256, 0, 0, 0, 0, 0]⟩],
        none)
    else if getB f 0 = 1 then
      ({ s with
          lockpoint_rx := 0
          lockpoint_count := 0
          lockpoints := fun z => if 0 ≤ z ∧ z < 10 then ⟨0, 0, 0⟩ else s.lockpoints z },
        [], none)
    else if getB f 0 = 2 then
      (s, [⟨0x7fc, 3, [2, s.mode % 256, ratToU8 s.ped_threshold, 0, 0, 0, 0, 0]⟩], none)
    else (s, [], none)
  else
    let s1 :=
      if f.id = 0x280 then pedUpdated s f
      else if f.id = 0x288 then
        { s with vehicle_speed := (getB f 3 * 100 * 128 / 10000) % 256 }
      else s
    let f1 :=
      if f.id = 0x280 ∧ s1.mode = 1 then { f with data := zeroFirst f.length f.data }
      else f
    let out : State × Frame :=
      if s1.mode = 2 ∨ s1.mode = 3 then
        let fr := get_lock_data s1 f1
        ({ s1 with lock_target := fr.2 }, fr.1)
      else (s1, f1)
    (out.1, [], some out.2)

/-- The frame relayed towards the coupling unit by one callback invocation
(meaningful for the non-master identifiers, which are always relayed). -/
def relayedFrame (s : State) (f : Frame) : Frame :=
  ((can1_rx_callback s f).2.2).getD f

/-! Concrete states and frames used by the witnesses and counterexamples. -/

def s5050 : State := { initState with mode := 2 }

def sFwd : State := { initState with mode := 1 }

def lpFrame0 : Frame := ⟨0x7ff, 8, [0, 5, 50, 0, 0, 0, 0, 0]⟩

def s255 : State := { initState with lockpoint_count := 255 }

def s11 : State :=
  (List.replicate 11 lpFrame0).foldl (fun s f => (can1_rx_callback s f).1) initState

def lpResidual : ℤ → Lockpoint := fun z => if z = -1 then ⟨0, 72, 0⟩ else ⟨0, 0, 0⟩

def brakeFrame : Frame := ⟨0x1a0, 8, [1, 2, 5, 7, 0, 0, 0, 0]⟩

def motor1Frame : Frame := ⟨0x280, 8, [9, 9, 9, 9, 9, 9, 9, 9]⟩

def m1f : Frame := ⟨0x280, 8, [1, 2, 3, 4, 5, 6, 7, 8]⟩

def f380 : Frame := ⟨0x380, 8, [1, 2, 3, 4, 5, 6, 7, 8]⟩

def exLp : ℤ → Lockpoint :=
  fun z => if z = 0 then ⟨10, 30, 0⟩ else if z = 1 then ⟨20, 50, 0⟩ else ⟨0, 0, 0⟩

def sDirty : State where
  mode := 3
  ped_threshold := 5
  lockpoints := fun _ => ⟨1, 2, 3⟩
  lockpoint_rx := 7
  lockpoint_count := 4
  vehicle_speed := 9
  ped_value := 8
  lock_target := 6

def clearFrame : Frame := ⟨0x7fe, 8, [1, 0, 0, 0, 0, 0, 0, 0]⟩

def sMask : State := { initState with lockpoint_rx := 43981 }

def checkFrame : Frame := ⟨0x7fe, 8, [0, 0, 0, 0, 0, 0, 0, 0]⟩

/-! Helper lemmas about the embedded operations, shared by the claim
theorems below. -/

theorem loopFind_eq_some (lp : ℤ → Lockpoint) (vs : ℕ) :
    ∀ (rem i u : ℕ), i ≤ u → u < i + rem → vs ≤ (lp (u : ℤ)).speed →
      (∀ j, i ≤ j → j < u → (lp (j : ℤ)).speed < vs) →
      loopFind lp vs i rem = some u := by
  intro rem
  induction rem with
  | zero => intro i u h1 h2 _ _; omega
  | succ rem ih =>
    intro i u h1 h2 h3 h4
    by_cases hcase : vs ≤ (lp (i : ℤ)).speed
    · have hiu : i = u := by
        by_contra hne
        exact absurd hcase (not_le.mpr (h4 i le_rfl (by omega)))
      subst hiu
      simp [loopFind, hcase]
    · have hne : i ≠ u := fun he => hcase (he ▸ h3)
      have hrec := ih (i + 1) u (by omega) (by omega) h3
        (fun j hj1 hj2 => h4 j (by omega) hj2)
      simp [loopFind, hcase, hrec]

theorem loopFind_eq_none (lp : ℤ → Lockpoint) (vs : ℕ) :
    ∀ (rem i : ℕ), (∀ j, i ≤ j → j < i + rem → (lp (j : ℤ)).speed < vs) →
      loopFind lp vs i rem = none := by
  intro rem
  induction rem with
  | zero => intro i _; rfl
  | succ rem ih =>
    intro i h
    have hcase : ¬ vs ≤ (lp (i : ℤ)).speed := not_le.mpr (h i le_rfl (by omega))
    have hrec := ih (i + 1) (fun j hj1 hj2 => h j (by omega) (by omega))
    simp [loopFind, hcase, hrec]

theorem data_eight (l : List ℕ) (h : l.length = 8) :
    ∃ b0 b1 b2 b3 b4 b5 b6 b7, l = [b0, b1, b2, b3, b4, b5, b6, b7] := by
  rcases l with _ | ⟨b0, _ | ⟨b1, _ | ⟨b2, _ | ⟨b3, _ | ⟨b4, _ | ⟨b5, _ | ⟨b6, _ | ⟨b7, t⟩⟩⟩⟩⟩⟩⟩⟩
  all_goals first
    | (refine ⟨b0, b1, b2, b3, b4, b5, b6, b7, ?_⟩
       have ht : t = [] := by
         simp only [List.length_cons] at h
         exact List.length_eq_zero.mp (by omega)
       rw [ht])
    | (exfalso; simp at h)

theorem getD_zeroFirst (n : ℕ) (l : List ℕ) (i : ℕ) (hi : i < n) (hl : i < l.length) :
    (zeroFirst n l).getD i 0 = 0 := by
  induction l generalizing n i with
  | nil => simp at hl
  | cons a t ih =>
    cases n with
    | zero => omega
    | succ n =>
      cases i with
      | zero => simp [zeroFirst]
      | succ i => simpa [zeroFirst] using ih n i (by omega) (by simpa using hl)

theorem adjVal_lt_256 (s : State) (v : ℕ) (hv : v < 256) : adjVal s v < 256 := by
  unfold adjVal get_lock_target_adjusted_value
  by_cases h : s.mode = 2
  · simp only [h, if_true]
    split <;> omega
  · simp only [h, if_false]
    exact Nat.mod_lt _ (by norm_num)

/-- Claim C1: for every state with `lockpoint_count ≥ 1` whose first
`lockpoint_count` table entries are in non-decreasing speed order,
`get_lock_target_adjustment` selects `upper` as the first entry in array
order with `speed ≥ vehicle_speed` and `lower` as the previous entry (or
`upper` itself when it is the first; when no entry qualifies, `upper`
defaults to entry `lockpoint_count - 1` and `lower` to entry 0), and
returns `lower.lock` if `vehicle_speed ≤ lower.speed`, `upper.lock` if
`vehicle_speed ≥ upper.speed`, otherwise
`lower.lock + (upper.lock - lower.lock) / ((upper.speed - lower.speed) / (vehicle_speed - lower.speed))`
when `pedal_value > pedal_threshold` or `pedal_threshold = 0`, and 0 when
that pedal condition is false. -/
theorem claim1_interpolator (lp : ℤ → Lockpoint) (count vs : ℕ) (pv pt : ℚ)
    (hcount : 1 ≤ count)
    (hsorted : ∀ j, j < count → ∀ i, i ≤ j → (lp (i : ℤ)).speed ≤ (lp (j : ℤ)).speed) :
    (∀ u, u < count → vs ≤ (lp (u : ℤ)).speed →
      (∀ j, j < u → (lp (j : ℤ)).speed < vs) →
      get_lock_target_adjustment lp count vs pv pt =
        (if vs ≤ (lp (if u = 0 then (0 : ℤ) else (u : ℤ) - 1)).speed then
          ((lp (if u = 0 then (0 : ℤ) else (u : ℤ) - 1)).lock : ℚ)
        else if (lp (u : ℤ)).speed ≤ vs then ((lp (u : ℤ)).lock : ℚ)
        else if pv > pt ∨ pt = 0 then
          ((lp (if u = 0 then (0 : ℤ) else (u : ℤ) - 1)).lock : ℚ) +
            (((lp (u : ℤ)).lock - ((lp (if u = 0 then (0 : ℤ) else (u : ℤ) - 1)).lock : ℚ)) /
              (((lp (u : ℤ)).speed - ((lp (if u = 0 then (0 : ℤ) else (u : ℤ) - 1)).speed : ℚ)) /
                ((vs : ℚ) - ((lp (if u = 0 then (0 : ℤ) else (u : ℤ) - 1)).speed : ℚ))))
        else 0))
    ∧ ((∀ i, i < count → (lp (i : ℤ)).speed < vs) →
        get_lock_target_adjustment lp count vs pv pt = ((lp ((count : ℤ) - 1)).lock : ℚ)) := by
  constructor
  · intro u hu hvs hmin
    have hfind : loopFind lp vs 0 count = some u :=
      loopFind_eq_some lp vs count 0 u (Nat.zero_le u) (by omega) hvs
        (fun j _ hj => hmin j hj)
    simp only [get_lock_target_adjustment, hfind]
  · intro hall
    have hfind : loopFind lp vs 0 count = none :=
      loopFind_eq_none lp vs count 0 (fun j _ hj => hall j (by omega))
    have h0 : (lp (0 : ℤ)).speed < vs := by
      have := hall 0 (by omega)
      simpa using this
    have hlast : (lp ((count : ℤ) - 1)).speed < vs := by
      have := hall (count - 1) (by omega)
      rwa [Nat.cast_sub hcount, Nat.cast_one] at this
    simp only [get_lock_target_adjustment, hfind]
    rw [if_neg (by exact_mod_cast not_le.mpr h0), if_pos (le_of_lt hlast)]

/-- Witness for C1: two sorted lockpoints (10,30) and (20,50), vehicle
speed 15, pedal condition true: the interpolated target is 30 + 20/2 = 40. -/
theorem claim1_witness : get_lock_target_adjustment exLp 2 15 1 0 = 40 := by
  have h := (claim1_interpolator exLp 2 15 1 0 (by norm_num)
      (by decide)).1 1 (by norm_num) (by decide) (by decide)
  rw [h]
  norm_num [exLp]

/-- Claim C2 (code bug): when `lockpoint_count = 0`, the initialiser
`lockpoints[lockpoint_count - 1]` evaluates index `0 - 1 = -1` in `int`
arithmetic — a lockpoint-table access outside `[0, 10)` — and the returned
value depends on that out-of-bounds cell: with a residual cell
`{speed 0, lock 72}` at index -1 and `vehicle_speed = 1` the function
returns 72, not the claimed 0. -/
theorem claim2_zero_count_oob :
    ((-1 : ℤ)) ∈ gltaAccesses lpResidual 0 1
    ∧ ¬ (0 ≤ (-1 : ℤ))
    ∧ get_lock_target_adjustment lpResidual 0 1 0 0 = 72
    ∧ (72 : ℚ) ≠ 0 := by
  refine ⟨by decide, by decide, by decide, by norm_num⟩

/-- Counterexample to C3 as stated: in Stock mode (mode 0, the
power-on default) a 0x1A0 frame is relayed with byte 2 still 5 and byte 3
still 7 — the fixed values 0x00/0x0A are not forced in every mode. -/
theorem claim3_counterexample :
    initState.mode = 0
    ∧ (can1_rx_callback initState brakeFrame).2.2 = some (relayedFrame initState brakeFrame)
    ∧ getB (relayedFrame initState brakeFrame) 2 = 5
    ∧ getB (relayedFrame initState brakeFrame) 3 = 7
    ∧ (5 : ℕ) ≠ 0 ∧ (7 : ℕ) ≠ 0xa := by decide

/-- Claim C3 (amended): whenever the mode is FiftyFifty or Custom — the
modes in which the rewriter runs — every relayed 0x1A0 frame has byte 2
forced to 0x00 and byte 3 to 0x0A, independent of the pedal-threshold
gating that governs the adjusted-value rewriting, with every other byte
unchanged; in Stock and Forward the frame is relayed unchanged. -/
theorem claim3_amended (s : State) (f : Frame) (hid : f.id = 0x1a0)
    (hlen : f.data.length = 8) :
    ((s.mode = 2 ∨ s.mode = 3) →
      (can1_rx_callback s f).2.2 = some (relayedFrame s f)
      ∧ getB (relayedFrame s f) 2 = 0 ∧ getB (relayedFrame s f) 3 = 0xa
      ∧ (∀ i, i < 8 → i ≠ 2 → i ≠ 3 → getB (relayedFrame s f) i = getB f i))
    ∧ (s.mode ≠ 2 → s.mode ≠ 3 →
      (can1_rx_callback s f).2.2 = some f) := by
  obtain ⟨b0, b1, b2, b3, b4, b5, b6, b7, hdata⟩ := data_eight f.data hlen
  rcases f with ⟨fid, flen, fdata⟩
  simp only [Frame.id] at hid
  simp only [Frame.data] at hdata
  subst hid hdata
  constructor
  · intro hmode
    rcases hmode with hm | hm <;>
      simp [can1_rx_callback, relayedFrame, get_lock_data, hm, getB] <;>
      intro i h1 h2 h3 <;>
      interval_cases i <;> simp_all
  · intro h2 h3
    simp [can1_rx_callback, get_lock_data, h2, h3]

/-- Witness for amended C3: in FiftyFifty mode the 0x1A0 frame has
bytes 2 and 3 forced to 0x00/0x0A and byte 0 unchanged. -/
theorem claim3_witness :
    getB (relayedFrame s5050 brakeFrame) 2 = 0
    ∧ getB (relayedFrame s5050 brakeFrame) 3 = 0xa
    ∧ getB (relayedFrame s5050 brakeFrame) 0 = getB brakeFrame 0 := by
  have h := (claim3_amended s5050 brakeFrame rfl (by decide)).1 (Or.inl rfl)
  exact ⟨h.2.1, h.2.2.1, h.2.2.2 0 (by norm_num) (by norm_num) (by norm_num)⟩

/-- Counterexample to C4 as stated: in FiftyFifty mode a 0x280 frame of
all-9 bytes is relayed with byte 0 = 0x00 and byte 2 = 0x20 — offsets
that receive fixed constants rather than values derived from
`adjusted(base_value)`, and that are not among the claim's exceptions —
so they are not relayed unchanged. -/
theorem claim4_counterexample :
    s5050.mode = 2 ∧ motor1Frame.id = 0x280
    ∧ getB (relayedFrame s5050 motor1Frame) 0 = 0
    ∧ getB (relayedFrame s5050 motor1Frame) 2 = 0x20
    ∧ getB (relayedFrame s5050 motor1Frame) 0 ≠ getB motor1Frame 0
    ∧ getB (relayedFrame s5050 motor1Frame) 2 ≠ getB motor1Frame 2 := by decide

/-- Claim C4 (amended): when mode is FiftyFifty or Custom the rewriter
writes, for 0x280, all eight bytes (bytes 1, 3, 4, 5, 7 with adjusted
values of the base constants 0xF0/0x4E and bytes 0, 2, 6 with the fixed
constants 0x00, 0x20, 0x20); for 0x380 only bytes 2 and 7; for 0x488 only
bytes 1 and 2; for 0x1A0 only the two fixed bytes 2 and 3; for 0x4A0 the
whole packed 8-byte payload; every remaining byte position of those
frames, and every frame with any other non-master identifier, is relayed
unchanged. -/
theorem claim4_amended (s : State) (f : Frame) (hlen : f.data.length = 8)
    (hmode : s.mode = 2 ∨ s.mode = 3) :
    ((f.id ≠ 0x7fd ∧ f.id ≠ 0x7fe ∧ f.id ≠ 0x7ff) →
      (can1_rx_callback s f).2.2 = some (relayedFrame s f))
    ∧ (f.id = 0x280 →
      (relayedFrame s f).data =
        [0, adjVal (pedUpdated s f) 0xf0, 0x20, adjVal (pedUpdated s f) 0x4e,
         adjVal (pedUpdated s f) 0xf0, adjVal (pedUpdated s f) 0xf0, 0x20,
         adjVal (pedUpdated s f) 0xf0])
    ∧ (f.id = 0x380 →
      getB (relayedFrame s f) 2 = adjVal s 0xfa
      ∧ getB (relayedFrame s f) 7 = adjVal s 0xfe
      ∧ (∀ i, i < 8 → i ≠ 2 → i ≠ 7 → getB (relayedFrame s f) i = getB f i))
    ∧ (f.id = 0x488 →
      getB (relayedFrame s f) 1 = adjVal s 0xfe
      ∧ getB (relayedFrame s f) 2 = adjVal s 0xfe
      ∧ (∀ i, i < 8 → i ≠ 1 → i ≠ 2 → getB (relayedFrame s f) i = getB f i))
    ∧ (f.id = 0x1a0 →
      getB (relayedFrame s f) 2 = 0
      ∧ getB (relayedFrame s f) 3 = 0xa
      ∧ (∀ i, i < 8 → i ≠ 2 → i ≠ 3 → getB (relayedFrame s f) i = getB f i))
    ∧ (f.id = 0x4a0 →
      (relayedFrame s f).data =
        [adjVal s 0xff, 0xa, adjVal s 0xff, 0xa, 0, 0xa, 0, 0xa])
    ∧ ((f.id ≠ 0x280 ∧ f.id ≠ 0x380 ∧ f.id ≠ 0x488 ∧ f.id ≠ 0x1a0 ∧ f.id ≠ 0x4a0
        ∧ f.id ≠ 0x7fd ∧ f.id ≠ 0x7fe ∧ f.id ≠ 0x7ff) →
      relayedFrame s f = f) := by
  obtain ⟨b0, b1, b2, b3, b4, b5, b6, b7, hdata⟩ := data_eight f.data hlen
  rcases f with ⟨fid, flen, fdata⟩
  simp only [Frame.data] at hdata
  subst hdata
  have hfa : adjVal s 0xfa < 256 := adjVal_lt_256 s 0xfa (by norm_num)
  have hfe : adjVal s 0xfe < 256 := adjVal_lt_256 s 0xfe (by norm_num)
  refine ⟨?_, ?_, ?_, ?_, ?_, ?_, ?_⟩
  · rintro ⟨h1, h2, h3⟩
    unfold relayedFrame can1_rx_callback
    rw [if_neg h1, if_neg h2, if_neg h3]
    rfl
  · intro hid
    simp only [Frame.id] at hid
    subst hid
    rcases hmode with hm | hm <;>
      simp [can1_rx_callback, relayedFrame, get_lock_data, pedUpdated, hm]
  · intro hid
    simp only [Frame.id] at hid
    subst hid
    rcases hmode with hm | hm <;>
      refine ⟨?_, ?_, ?_⟩ <;>
      first
        | (intro i hi h2 h7
           interval_cases i <;>
             simp_all [can1_rx_callback, relayedFrame, get_lock_data, getB])
        | (simp [can1_rx_callback, relayedFrame, get_lock_data, hm, getB,
            Nat.mod_eq_of_lt hfa, Nat.mod_eq_of_lt hfe])
  · intro hid
    simp only [Frame.id] at hid
    subst hid
    rcases hmode with hm | hm <;>
      refine ⟨?_, ?_, ?_⟩ <;>
      first
        | (intro i hi h1 h2
           interval_cases i <;>
             simp_all [can1_rx_callback, relayedFrame, get_lock_data, getB])
        | (simp [can1_rx_callback, relayedFrame, get_lock_data, hm, getB,
            Nat.mod_eq_of_lt hfa, Nat.mod_eq_of_lt hfe])
  · intro hid
    simp only [Frame.id] at hid
    subst hid
    rcases hmode with hm | hm <;>
      refine ⟨?_, ?_, ?_⟩ <;>
      first
        | (intro i hi h2 h3
           interval_cases i <;>
             simp_all [can1_rx_callback, relayedFrame, get_lock_data, getB])
        | (simp [can1_rx_callback, relayedFrame, get_lock_data, hm, getB])
  · intro hid
    simp only [Frame.id] at hid
    subst hid
    rcases hmode with hm | hm <;>
      simp [can1_rx_callback, relayedFrame, get_lock_data, hm]
  · rintro ⟨h1, h2, h3, h4, h5, h6, h7, h8⟩
    rcases hmode with hm | hm <;>
      simp [can1_rx_callback, relayedFrame, get_lock_data, h1, h2, h3, h4, h5,
        h6, h7, h8, hm]

/-- Witness for amended C4: a 0x380 frame in FiftyFifty mode gets byte
2 rewritten to the adjusted 0xFA value while byte 4 is unchanged. -/
theorem claim4_witness :
    getB (relayedFrame s5050 f380) 2 = adjVal s5050 0xfa
    ∧ getB (relayedFrame s5050 f380) 4 = getB f380 4 := by
  have h := claim4_amended s5050 f380 (by decide) (Or.inl rfl)
  exact ⟨(h.2.2.1 rfl).1, (h.2.2.1 rfl).2.2 4 (by norm_num) (by norm_num) (by norm_num)⟩

/-- Claim C5: when mode is FiftyFifty, `get_lock_target_adjusted_value v`
returns `v` for every byte `v` if `ped_value > ped_threshold` or
`ped_threshold = 0`, returns 0 otherwise, and has no other effect
(`lock_target` is returned unchanged). -/
theorem claim5_fiftyfifty (s : State) (hmode : s.mode = 2) (v : ℕ) :
    ((s.ped_value > s.ped_threshold ∨ s.ped_threshold = 0) →
      get_lock_target_adjusted_value s v = (v, s.lock_target))
    ∧ (¬ (s.ped_value > s.ped_threshold ∨ s.ped_threshold = 0) →
      get_lock_target_adjusted_value s v = (0, s.lock_target)) := by
  constructor <;> intro hc <;> simp [get_lock_target_adjusted_value, hmode, hc]

/-- Witness for C5: FiftyFifty mode with threshold 0 passes the byte 7
through and leaves `lock_target` at 0. -/
theorem claim5_witness : get_lock_target_adjusted_value s5050 7 = (7, 0) :=
  (claim5_fiftyfifty s5050 rfl 7).1 (Or.inr rfl)

/-- Claim C6: in Forward mode every 0x280 frame is relayed with all of
its `length` payload bytes zeroed, and `ped_value` is still extracted
from byte 5 of the original payload (scaled by 0.4 = 2/5) before the
zeroing. -/
theorem claim6_forward (s : State) (f : Frame) (hid : f.id = 0x280) (hmode : s.mode = 1)
    (hlen : f.data.length = 8) (hdlc : f.length ≤ 8) :
    (can1_rx_callback s f).2.2 = some (relayedFrame s f)
    ∧ (∀ i, i < f.length → getB (relayedFrame s f) i = 0)
    ∧ (can1_rx_callback s f).1.ped_value = (getB f 5 : ℚ) * (2 / 5) := by
  rcases f with ⟨fid, flen, fdata⟩
  simp only [Frame.id] at hid
  simp only [Frame.data] at hlen
  simp only [Frame.length] at hdlc
  subst hid
  have hr : relayedFrame s ⟨0x280, flen, fdata⟩ =
      ⟨0x280, flen, zeroFirst flen fdata⟩ := by
    simp [can1_rx_callback, relayedFrame, pedUpdated, hmode]
  refine ⟨?_, ?_, ?_⟩
  · simp [can1_rx_callback, relayedFrame, pedUpdated, hmode]
  · intro i hi
    simp only [Frame.length] at hi
    rw [hr]
    simp only [getB, Frame.data]
    rw [getD_zeroFirst flen fdata i hi (by omega)]
  · simp [can1_rx_callback, pedUpdated, hmode, getB]

/-- Witness for C6: a Forward-mode 0x280 frame `[1..8]` is relayed with
byte 3 zeroed while `ped_value` becomes 6 * 0.4 = 12/5. -/
theorem claim6_witness :
    getB (relayedFrame sFwd m1f) 3 = 0
    ∧ (can1_rx_callback sFwd m1f).1.ped_value = 12 / 5 := by
  have h := claim6_forward sFwd m1f rfl rfl (by decide) (by decide)
  refine ⟨h.2.1 3 (by decide), ?_⟩
  rw [h.2.2]
  have h6 : getB m1f 5 = 6 := by decide
  rw [h6]
  norm_num

/-- Counterexample to C7 as stated: processing a valid master-data
frame when the 8-bit reception counter holds 255 wraps the counter to 0,
which is not `255 + 1` — the counter is not always incremented by exactly
one. -/
theorem claim7_counterexample :
    lpFrame0.id = 0x7ff ∧ getB lpFrame0 0 = 0
    ∧ s255.lockpoint_count = 255
    ∧ (can1_rx_callback s255 lpFrame0).1.lockpoint_count = 0
    ∧ (can1_rx_callback s255 lpFrame0).1.lockpoint_count ≠ s255.lockpoint_count + 1 := by decide

/-- Claim C7 (amended): a master-data frame (0x7FF) with index byte
`< 10` writes the addressed lockpoint from bytes 1-3, sets exactly bit
`byte0` of the reception mask (all other bits and lockpoints unchanged),
and increments the 8-bit reception counter modulo 256 (by exactly 1
except that from 255 it wraps to 0), emitting nothing; with index byte
`≥ 10` the state is unchanged and no frame is emitted. -/
theorem claim7_amended (s : State) (f : Frame) (hid : f.id = 0x7ff) :
    (getB f 0 < 10 →
      (can1_rx_callback s f).1.lockpoints ((getB f 0 : ℕ) : ℤ) =
        ⟨getB f 1, getB f 2, getB f 3⟩
      ∧ (∀ z : ℤ, z ≠ ((getB f 0 : ℕ) : ℤ) →
          (can1_rx_callback s f).1.lockpoints z = s.lockpoints z)
      ∧ ((can1_rx_callback s f).1.lockpoint_rx).testBit (getB f 0) = true
      ∧ (∀ b, b ≠ getB f 0 →
          ((can1_rx_callback s f).1.lockpoint_rx).testBit b = s.lockpoint_rx.testBit b)
      ∧ (can1_rx_callback s f).1.lockpoint_count = (s.lockpoint_count + 1) % 256
      ∧ (can1_rx_callback s f).2.1 = [] ∧ (can1_rx_callback s f).2.2 = none)
    ∧ (10 ≤ getB f 0 →
      (can1_rx_callback s f).1 = s
      ∧ (can1_rx_callback s f).2.1 = [] ∧ (can1_rx_callback s f).2.2 = none) := by
  have hshift : (1 <<< getB f 0) = 2 ^ getB f 0 := by
    rw [Nat.shiftLeft_eq, one_mul]
  constructor
  · intro hidx
    refine ⟨?_, ?_, ?_, ?_, ?_, ?_, ?_⟩
    · simp [can1_rx_callback, hid, hidx]
    · intro z hz
      simp [can1_rx_callback, hid, hidx, hz]
    · simp [can1_rx_callback, hid, hidx, hshift, Nat.testBit_or,
        Nat.testBit_two_pow_self]
    · intro b hb
      simp [can1_rx_callback, hid, hidx, hshift, Nat.testBit_or,
        Nat.testBit_two_pow_of_ne (Ne.symm hb)]
    · simp [can1_rx_callback, hid, hidx]
    · simp [can1_rx_callback, hid, hidx]
    · simp [can1_rx_callback, hid, hidx]
  · intro hidx
    have hidx2 : ¬ (getB f 0 < 10) := by omega
    refine ⟨?_, ?_, ?_⟩ <;> simp [can1_rx_callback, hid, hidx2]

/-- Witness for amended C7: from the startup state, a master-data frame
with index 0, speed 5, lock 50 sets mask bit 0, makes the counter 1 and
stores lockpoint {5, 50, 0}. -/
theorem claim7_witness :
    ((can1_rx_callback initState lpFrame0).1.lockpoint_rx).testBit 0 = true
    ∧ (can1_rx_callback initState lpFrame0).1.lockpoint_count = 1
    ∧ (can1_rx_callback initState lpFrame0).1.lockpoints 0 = ⟨5, 50, 0⟩ := by
  have h := (claim7_amended initState lpFrame0 rfl).1 (by decide)
  have h0 : getB lpFrame0 0 = 0 := by decide
  refine ⟨?_, ?_, ?_⟩
  · have := h.2.2.1
    rwa [h0] at this
  · have := h.2.2.2.2.1
    rw [this]
    decide
  · have := h.1
    rw [h0] at this
    simpa using this

/-- Claim C8: the Clear subcommand (0x7FE with byte 0 = 1) zeroes the
reception mask, the reception counter and all ten lockpoint entries, for
every prior state, and leaves mode, pedal threshold, vehicle speed, pedal
value and lock target unchanged. -/
theorem claim8_clear (s : State) (f : Frame) (hid : f.id = 0x7fe) (hsub : getB f 0 = 1) :
    (can1_rx_callback s f).1.lockpoint_rx = 0
    ∧ (can1_rx_callback s f).1.lockpoint_count = 0
    ∧ (∀ z : ℤ, 0 ≤ z → z < 10 → (can1_rx_callback s f).1.lockpoints z = ⟨0, 0, 0⟩)
    ∧ (can1_rx_callback s f).1.mode = s.mode
    ∧ (can1_rx_callback s f).1.ped_threshold = s.ped_threshold
    ∧ (can1_rx_callback s f).1.vehicle_speed = s.vehicle_speed
    ∧ (can1_rx_callback s f).1.ped_value = s.ped_value
    ∧ (can1_rx_callback s f).1.lock_target = s.lock_target := by
  refine ⟨?_, ?_, ?_, ?_, ?_, ?_, ?_, ?_⟩ <;>
    simp [can1_rx_callback, hid, hsub]
  intro z hz1 hz2
  simp [hz1, hz2]

/-- Witness for C8: clearing a fully dirty state zeroes mask and
lockpoints while the mode stays 3. -/
theorem claim8_witness :
    (can1_rx_callback sDirty clearFrame).1.lockpoint_rx = 0
    ∧ (can1_rx_callback sDirty clearFrame).1.lockpoints 3 = ⟨0, 0, 0⟩
    ∧ (can1_rx_callback sDirty clearFrame).1.mode = 3 := by
  have h := claim8_clear sDirty clearFrame rfl (by decide)
  exact ⟨h.1, h.2.2.1 3 (by norm_num) (by norm_num), by rw [h.2.2.2.1]; decide⟩

/-- Claim C9: the CheckLockpoints subcommand (0x7FE with byte 0 = 0)
answers with a single 0x7FC frame of length 3 carrying
`[0, mask & 0xFF, (mask << 8) & 0xFF]`, and the third byte is 0 for every
16-bit mask — the shift-then-mask sequence never transmits the high mask
byte. -/
theorem claim9_checklockpoints (s : State) (f : Frame) (hid : f.id = 0x7fe)
    (hsub : getB f 0 = 0) (hmask : s.lockpoint_rx < 65536) :
    (can1_rx_callback s f).2.1 =
      [⟨0x7fc, 3, [0, s.lockpoint_rx % 256, (s.lockpoint_rx <<< 8) % 256, 0, 0, 0, 0, 0]⟩]
    ∧ (s.lockpoint_rx <<< 8) % 256 = 0
    ∧ (can1_rx_callback s f).2.2 = none := by
  refine ⟨?_, ?_, ?_⟩
  · simp [can1_rx_callback, hid, hsub]
  · rw [Nat.shiftLeft_eq]
    norm_num
  · simp [can1_rx_callback, hid, hsub]

/-- Witness for C9: with mask 0xABCD the reply carries low byte 0xCD
and third byte 0. -/
theorem claim9_witness :
    (can1_rx_callback sMask checkFrame).2.1 =
      [⟨0x7fc, 3, [0, 205, 0, 0, 0, 0, 0, 0]⟩] := by
  have h := claim9_checklockpoints sMask checkFrame rfl (by decide) (by decide)
  rw [h.1]
  decide

/-- Claim C10 (code bug): after eleven valid master-data receptions of
index 0 from startup the reception counter is 11, and
`get_lock_target_adjustment` reads `lockpoints[lockpoint_count - 1] =
lockpoints[10]` — an index outside the table bounds `[0, 10)`. -/
theorem claim10_scan_oob :
    s11.lockpoint_count = 11
    ∧ ((11 : ℤ) - 1) ∈ gltaAccesses s11.lockpoints s11.lockpoint_count s11.vehicle_speed
    ∧ ¬ ((11 : ℤ) - 1 < 10) := by decide

end OpenHaldex
